import Mathlib

/-!
Shallow embedding of the link-resolution pipeline of `src/buscar_links_ml.py`.

Strings are modelled as `List Char`.  Python's `unicodedata.normalize("NFKD", _)`
is modelled by a per-character decomposition table covering the decomposable
characters exercised in this development; it is the identity elsewhere (NFKD is
the identity on ASCII, and every non-ASCII code point is discarded by the
subsequent `encode("ascii", "ignore")` step, so the claims below do not depend
on the remaining table entries).
-/

namespace ScraperML

/-- Characters matched by Python's regex class `\s` in the ASCII range.
The text reaching the whitespace operations inside `gerar_slug` is pure ASCII
(everything at or above code point 128 was dropped by the `ascii`/`ignore`
encode step), so only the ASCII whitespace characters are relevant. -/
def isPySpace (c : Char) : Bool :=
  c == ' ' || c == '\t' || c == '\n' || c == '\r' ||
    c.toNat == 11 || c.toNat == 12 ||
    c.toNat == 28 || c.toNat == 29 || c.toNat == 30 || c.toNat == 31

/-- `A`-`Z`. -/
def isUpperAscii (c : Char) : Bool :=
  decide (65 ≤ c.toNat) && decide (c.toNat ≤ 90)

/-- `a`-`z`. -/
def isLowerAscii (c : Char) : Bool :=
  decide (97 ≤ c.toNat) && decide (c.toNat ≤ 122)

/-- `0`-`9`. -/
def isDigitAscii (c : Char) : Bool :=
  decide (48 ≤ c.toNat) && decide (c.toNat ≤ 57)

/-- Python `str.lower` on the ASCII letters (the only characters present when
`gerar_slug` applies `.lower()`). -/
def pyToLower (c : Char) : Char :=
  if isUpperAscii c then Char.ofNat (c.toNat + 32) else c

/-- `unicodedata.normalize("NFKD", _)`, per character: canonical decomposition
of the accented characters used here (base letter followed by the combining
mark), identity on every other character. -/
def nfkdChar (c : Char) : List Char :=
  if c == 'á' then ['a', Char.ofNat 769]
  else if c == 'ã' then ['a', Char.ofNat 771]
  else if c == 'ç' then ['c', Char.ofNat 807]
  else if c == 'é' then ['e', Char.ofNat 769]
  else if c == 'ê' then ['e', Char.ofNat 770]
  else [c]

/-- `unicodedata.normalize("NFKD", texto)`. -/
def nfkd (s : List Char) : List Char :=
  (s.map nfkdChar).flatten

/-- `.encode("ascii", "ignore").decode("ascii")`: keep the code points below
128, drop everything else. -/
def asciiIgnore (s : List Char) : List Char :=
  s.filter (fun c => decide (c.toNat < 128))

/-- The character class kept by `re.sub(r"[^a-zA-Z0-9\s-]", "", _)`. -/
def keepChar (c : Char) : Bool :=
  isUpperAscii c || isLowerAscii c || isDigitAscii c || isPySpace c || c == '-'

/-- Python `str.strip()`: remove leading and trailing whitespace. -/
def pyStrip (s : List Char) : List Char :=
  ((s.dropWhile isPySpace).reverse.dropWhile isPySpace).reverse

/-- `re.sub(r"\s+", "-", _)`: replace every maximal run of whitespace by a
single hyphen. -/
def collapseSpaces : List Char → List Char
  | [] => []
  | [c] => if isPySpace c then ['-'] else [c]
  | c :: d :: cs =>
    if isPySpace c then
      if isPySpace d then collapseSpaces (d :: cs)
      else '-' :: collapseSpaces (d :: cs)
    else c :: collapseSpaces (d :: cs)

/-- `re.sub(r"-+", "-", _)`: replace every maximal run of hyphens by a single
hyphen. -/
def collapseHyphens : List Char → List Char
  | [] => []
  | [c] => [c]
  | c :: d :: cs =>
    if c == '-' && d == '-' then collapseHyphens (d :: cs)
    else c :: collapseHyphens (d :: cs)

/-- `gerar_slug` (src/buscar_links_ml.py lines 41-53): NFKD decomposition,
ASCII projection, removal of characters outside `[a-zA-Z0-9\s-]`, strip,
whitespace runs to a hyphen, hyphen runs collapsed, lowercased. -/
def gerar_slug (texto : List Char) : List Char :=
  let texto_normalizado := nfkd texto
  let texto_ascii := asciiIgnore texto_normalizado
  let texto_limpo := texto_ascii.filter keepChar
  let texto_hifenizado := collapseSpaces (pyStrip texto_limpo)
  let texto_hifenizado2 := collapseHyphens texto_hifenizado
  texto_hifenizado2.map pyToLower

/-- The character class a slug is made of: lowercase ASCII alphanumerics and
the hyphen. -/
def goodChar (c : Char) : Bool :=
  isLowerAscii c || isDigitAscii c || c == '-'

/-- No two consecutive hyphens anywhere in the list. -/
def noDoubleHyphen : List Char → Bool
  | a :: b :: t => !(a == '-' && b == '-') && noDoubleHyphen (b :: t)
  | _ => true

/-! ## Link validation (fast path, src/buscar_links_ml.py lines 126-150) -/

/-- `href.split("#")[0]`: drop the URL fragment. -/
def stripFragment (href : List Char) : List Char :=
  href.takeWhile (fun c => c != '#')

/-- The deny-list `links_invalidos` (lines 127-133, identical tuple at lines
202-208). -/
def links_invalidos : List (List Char) :=
  ["/acessibilidade".toList, "/ajuda".toList, "/ofertas".toList,
    "/privacidade".toList, "/seguranca".toList]

/-- Does the predicate hold on some suffix of the list?  This models
`re.search`, which looks for a match starting at every position, and Python's
substring operator `in`. -/
def anySuffix (p : List Char → Bool) : List Char → Bool
  | [] => p []
  | c :: cs => p (c :: cs) || anySuffix p cs

/-- Python's substring test `pat in s`. -/
def isSub (pat s : List Char) : Bool :=
  anySuffix (fun t => pat.isPrefixOf t) s

/-- `any(inv in href for inv in links_invalidos)`: substring containment of a
deny-list entry. -/
def contemInvalido (href : List Char) : Bool :=
  links_invalidos.any (fun inv => isSub inv href)

/-- Case folding of a candidate string, used to model the `re.IGNORECASE`
searches (both regex pattern literals are lowercase once case is folded). -/
def lowerStr (s : List Char) : List Char :=
  s.map pyToLower

/-- Head of the list is an ASCII digit (`\d` at the position after the literal
part of an alternative). -/
def headIsDigit : List Char → Bool
  | [] => false
  | c :: _ => isDigitAscii c

/-- One position of the fast-path regex
`(\/p\/MLB\d+|MLB-\d+|\/item\/)` (line 100), on case-folded text: the
alternative matches at the start of `s`. -/
def altFastAt (s : List Char) : Bool :=
  (("/p/mlb".toList).isPrefixOf s && headIsDigit (s.drop 6)) ||
    (("mlb-".toList).isPrefixOf s && headIsDigit (s.drop 4)) ||
    ("/item/".toList).isPrefixOf s

/-- `padrao_produto.search(href)` for the fast-path pattern (line 100),
case-insensitive. -/
def padrao_produto_search (href : List Char) : Bool :=
  anySuffix altFastAt (lowerStr href)

/-- One position of the slow-path regex `(?:/item/|/p/)` (line 209), on
case-folded text. -/
def altSlowAt (s : List Char) : Bool :=
  ("/item/".toList).isPrefixOf s || ("/p/".toList).isPrefixOf s

/-- `padrao_produto.search(href)` for the slow-path pattern (line 209),
case-insensitive. -/
def padrao_produto_slow_search (href : List Char) : Bool :=
  anySuffix altSlowAt (lowerStr href)

/-- Outcome of processing one candidate `href` in the fast-path loop. -/
inductive Veredicto where
  | aceito
  | duplicado
  | ignorado
  deriving DecidableEq, Repr

/-- Lines 140-148 of the fast-path loop, for one candidate with a truthy
`href`: strip the fragment, reject a URL already in `vistos`, otherwise add it
to `vistos` and reject it when a deny-list entry occurs in it or the product
pattern does not, accept it otherwise.  Returns the verdict together with the
updated `vistos` set (modelled as a duplicate-free list). -/
def validarHref (href : List Char) (vistos : List (List Char)) :
    Veredicto × List (List Char) :=
  let h := stripFragment href
  if vistos.contains h then (Veredicto.duplicado, vistos)
  else
    let vistos2 := h :: vistos
    if contemInvalido h || !padrao_produto_search h then (Veredicto.ignorado, vistos2)
    else (Veredicto.aceito, vistos2)

/-! ## Fast path after the HTTP response (lines 98-163) -/

/-- The parsed page, as the fast path observes it: for each CSS selector of the
cascade (lines 102-106), the `href` attribute of each matched element in
document order (`none` when the element has no `href`); and the `href` of every
anchor having one (`soup.find_all("a", href=True)`, line 113). -/
structure Pagina where
  porSeletor : List (List (Option (List Char)))
  todasAncoras : List (List Char)

/-- Lines 107-113: try the selectors in order, first non-empty result wins;
otherwise fall back to every anchor whose raw `href` matches the product
pattern. -/
def cascade (p : Pagina) : List (Option (List Char)) :=
  match p.porSeletor.find? (fun cards => !cards.isEmpty) with
  | some cards => cards
  | none => (p.todasAncoras.filter (fun h => padrao_produto_search h)).map some

/-- Lines 136-150: walk the cards, skip falsy `href`s, validate each candidate
(fragment strip, dedup via `vistos`, deny-list, product pattern), collect
accepted links, stop once `limite` links were collected. -/
def loopValidar (limite : Nat) :
    List (Option (List Char)) → List (List Char) → List (List Char) → List (List Char)
  | [], _, links => links
  | none :: rest, vistos, links => loopValidar limite rest vistos links
  | some href :: rest, vistos, links =>
    if href.isEmpty then loopValidar limite rest vistos links
    else
      match validarHref href vistos with
      | (Veredicto.aceito, vistos2) =>
        let links2 := links ++ [stripFragment href]
        if limite ≤ links2.length then links2 else loopValidar limite rest vistos2 links2
      | (_, vistos2) => loopValidar limite rest vistos2 links

/-- The value returned by `buscar_links_mercado_livre` once a successful HTTP
response was parsed (lines 98-163): the empty list when the selector cascade
yields no cards, the validated links otherwise. -/
def buscar_links_resultado (p : Pagina) (limite : Nat) : List (List Char) :=
  let cards := cascade p
  if cards.isEmpty then [] else loopValidar limite cards [] []

/-- A card that can never contribute a link: its `href` is falsy, or the
fragment-stripped `href` hits the deny-list or misses the product pattern. -/
def cardInvalido : Option (List Char) → Bool
  | none => true
  | some href =>
    href.isEmpty ||
      contemInvalido (stripFragment href) ||
      !padrao_produto_search (stripFragment href)

/-- A debug-capture write attempt: `open(...)` followed by `f.write(...)`,
raising `OSError` when the file system fails. -/
def tentarEscrever (falha : Bool) : Except (List Char) Unit :=
  if falha then Except.error ("OSError".toList) else Except.ok ()

/-- Lines 115-163 with the debug-capture writes made explicit: the fast path
wraps each write in `try ... except OSError` (lines 117-123 and 152-158), so a
failed write is only logged.  `salvar` is the `salvar_html` flag and `falha`
tells whether a write attempt would raise `OSError`. -/
def buscar_links_posResposta (p : Pagina) (limite : Nat) (salvar falha : Bool) :
    Except (List Char) (List (List Char)) :=
  let cards := cascade p
  if cards.isEmpty then
    if salvar then
      match tentarEscrever falha with
      | Except.ok _ => Except.ok []
      | Except.error _ => Except.ok []
    else Except.ok []
  else
    let links := loopValidar limite cards [] []
    if links.isEmpty && salvar then
      match tentarEscrever falha with
      | Except.ok _ => Except.ok links
      | Except.error _ => Except.ok links
    else Except.ok links

/-! ## Transport-level retries of the fast path (lines 73-96) -/

/-- `status_forcelist=[429, 500, 502, 503, 504]` (line 77). -/
def status_forcelist : List Nat := [429, 500, 502, 503, 504]

/-- `Retry(total=3, ...)` (line 75). -/
def fastRetryTotal : Nat := 3

/-- Number of HTTP GETs the mounted `HTTPAdapter(max_retries=Retry(...))`
issues for one `session.get` call: `resp` gives the status of the response to
each successive GET (indexed from `i`), and a GET is retried while the status
is in the force-list and retries remain. -/
def numGets : Nat → (Nat → Nat) → Nat → Nat
  | 0, _, _ => 1
  | total + 1, resp, i =>
    if status_forcelist.contains (resp i) then 1 + numGets total resp (i + 1) else 1

/-! ## Slow path: one term of `buscar_links_para_itens` (lines 211-289) -/

/-- The condition under which the slow-path loop (lines 236-250) accepts a
candidate: fragment stripped, no deny-list entry occurs in it, and the
slow-path product pattern matches. -/
def aceitaSlow (href : List Char) : Bool :=
  let h := stripFragment href
  !contemInvalido h && padrao_produto_slow_search h

/-- Lines 236-250: first accepted candidate of the slow-path loop, skipping
elements with a falsy `href`; returns the fragment-stripped link. -/
def primeiroValido : List (Option (List Char)) → Option (List Char)
  | [] => none
  | none :: rest => primeiroValido rest
  | some href :: rest =>
    if href.isEmpty then primeiroValido rest
    else if contemInvalido (stripFragment href) then primeiroValido rest
    else if !padrao_produto_slow_search (stripFragment href) then primeiroValido rest
    else some (stripFragment href)

/-- What loading the search page in the browser produced: the `href` attribute
of each matched result element (in document order), a `TimeoutException`, or
another exception with the given class name. -/
inductive CarregarResultado where
  | ok (elementos : List (Option (List Char)))
  | timeout
  | erro (nome : List Char)

/-- The per-term fields of the record appended to `resultados`
(lines 280-287), restricted to the two fields the claims are about. -/
structure Registro where
  link : List Char
  status : List Char
  deriving DecidableEq, Repr

/-- Lines 215-287, for one term of the slow path: the result record, or the
`OSError` that propagates out of `buscar_links_para_itens` when a debug write
raised inside an exception handler.  `falha1` tells whether the first debug
write attempted in the taken branch raises `OSError`, `falha2` whether the
write inside the generic `except Exception` handler raises.

Control flow being modelled: the not-found debug write (lines 255-258) sits
inside the big `try`, so its `OSError` is caught by the generic
`except Exception` handler (line 266), which overwrites `status` and then
performs its own unprotected write (lines 271-273); the writes inside the
`TimeoutException` and generic handlers are not protected at all, so their
`OSError` escapes the loop. -/
def processarTermo (carregar : CarregarResultado) (falha1 falha2 : Bool) :
    Except (List Char) Registro :=
  match carregar with
  | CarregarResultado.ok elementos =>
    match primeiroValido elementos with
    | some h => Except.ok ⟨h, "Sucesso".toList⟩
    | none =>
      if falha1 then
        if falha2 then Except.error ("OSError".toList)
        else Except.ok ⟨"NÃO ENCONTRADO".toList, "Erro: OSError".toList⟩
      else Except.ok ⟨"NÃO ENCONTRADO".toList, "Não encontrado".toList⟩
  | CarregarResultado.timeout =>
    if falha1 then Except.error ("OSError".toList)
    else Except.ok ⟨"NÃO ENCONTRADO".toList, "Timeout".toList⟩
  | CarregarResultado.erro nome =>
    if falha1 then Except.error ("OSError".toList)
    else Except.ok ⟨"NÃO ENCONTRADO".toList, "Erro: ".toList ++ nome⟩

/-! ## Character-level lemmas -/

theorem toNat_ofNat_lt (n : Nat) (h : n < 55296) : (Char.ofNat n).toNat = n := by
  have hv : n.isValidChar := Or.inl h
  simp [Char.ofNat, hv, Char.ofNatAux, Char.toNat, UInt32.toNat]

theorem pyToLower_of_upper {c : Char} (h : isUpperAscii c = true) :
    isLowerAscii (pyToLower c) = true := by
  unfold isUpperAscii at h
  simp only [Bool.and_eq_true, decide_eq_true_eq] at h
  have h1 : c.toNat + 32 < 55296 := by omega
  unfold pyToLower
  rw [if_pos (by unfold isUpperAscii; simp only [Bool.and_eq_true, decide_eq_true_eq]; omega)]
  unfold isLowerAscii
  rw [toNat_ofNat_lt _ h1]
  simp only [Bool.and_eq_true, decide_eq_true_eq]
  omega

theorem pyToLower_of_not_upper {c : Char} (h : isUpperAscii c = false) :
    pyToLower c = c := by
  simp [pyToLower, h]

theorem pyToLower_toNat_of_upper {c : Char} (h : isUpperAscii c = true) :
    (pyToLower c).toNat = c.toNat + 32 := by
  unfold isUpperAscii at h
  simp only [Bool.and_eq_true, decide_eq_true_eq] at h
  unfold pyToLower
  rw [if_pos (by unfold isUpperAscii; simp only [Bool.and_eq_true, decide_eq_true_eq]; omega)]
  exact toNat_ofNat_lt _ (by omega)

theorem pyToLower_hyphen {a : Char} (h : pyToLower a = '-') : a = '-' := by
  by_cases hu : isUpperAscii a = true
  · exfalso
    have h45 : (pyToLower a).toNat = 45 := by rw [h]; decide
    rw [pyToLower_toNat_of_upper hu] at h45
    unfold isUpperAscii at hu
    simp only [Bool.and_eq_true, decide_eq_true_eq] at hu
    omega
  · rwa [pyToLower_of_not_upper (Bool.eq_false_iff.mpr hu)] at h

theorem good_toNat {c : Char} (h : goodChar c = true) :
    (97 ≤ c.toNat ∧ c.toNat ≤ 122) ∨ (48 ≤ c.toNat ∧ c.toNat ≤ 57) ∨ c.toNat = 45 := by
  unfold goodChar isLowerAscii isDigitAscii at h
  simp only [Bool.or_eq_true, Bool.and_eq_true, decide_eq_true_eq, beq_iff_eq] at h
  rcases h with (h | h) | h
  · exact Or.inl h
  · exact Or.inr (Or.inl h)
  · subst h; exact Or.inr (Or.inr (by decide))

theorem good_not_space {c : Char} (h : goodChar c = true) : isPySpace c = false := by
  have hb := good_toNat h
  apply Bool.eq_false_iff.mpr
  intro hsp
  unfold isPySpace at hsp
  simp only [Bool.or_eq_true, beq_iff_eq] at hsp
  rcases hsp with ((((((((h1 | h1) | h1) | h1) | h1) | h1) | h1) | h1) | h1) | h1 <;>
    first
      | (subst h1; revert hb; decide)
      | omega

theorem good_not_upper {c : Char} (h : goodChar c = true) : isUpperAscii c = false := by
  have hb := good_toNat h
  apply Bool.eq_false_iff.mpr
  intro hu
  unfold isUpperAscii at hu
  simp only [Bool.and_eq_true, decide_eq_true_eq] at hu
  omega

theorem good_keep {c : Char} (h : goodChar c = true) : keepChar c = true := by
  unfold goodChar at h
  unfold keepChar
  rcases Bool.or_eq_true _ _ |>.mp h with h1 | h1
  · rcases Bool.or_eq_true _ _ |>.mp h1 with h2 | h2 <;> simp [h2]
  · simp [h1]

theorem good_ascii {c : Char} (h : goodChar c = true) : c.toNat < 128 := by
  have hb := good_toNat h
  omega

/-! ## List-level lemmas about the slug pipeline -/

theorem mem_dropWhile {p : Char → Bool} {l : List Char} {c : Char}
    (h : c ∈ l.dropWhile p) : c ∈ l := by
  induction l with
  | nil => simp at h
  | cons a t ih =>
    rw [List.dropWhile_cons] at h
    split at h
    · exact List.mem_cons_of_mem _ (ih h)
    · exact h

theorem mem_pyStrip {l : List Char} {c : Char} (h : c ∈ pyStrip l) : c ∈ l := by
  unfold pyStrip at h
  rw [List.mem_reverse] at h
  have h2 := mem_dropWhile h
  rw [List.mem_reverse] at h2
  exact mem_dropWhile h2

theorem dropWhile_eq_self {p : Char → Bool} {l : List Char}
    (h : ∀ c ∈ l, p c = false) : l.dropWhile p = l := by
  cases l with
  | nil => rfl
  | cons a t =>
    rw [List.dropWhile_cons, if_neg]
    simp [h a (List.mem_cons_self a t)]

theorem pyStrip_eq_self {l : List Char} (h : ∀ c ∈ l, isPySpace c = false) :
    pyStrip l = l := by
  unfold pyStrip
  rw [dropWhile_eq_self h, dropWhile_eq_self, List.reverse_reverse]
  intro c hc
  exact h c (List.mem_reverse.mp hc)

theorem mem_collapseSpaces {l : List Char} {c : Char} (h : c ∈ collapseSpaces l) :
    c = '-' ∨ (c ∈ l ∧ isPySpace c = false) := by
  induction l with
  | nil => simp [collapseSpaces] at h
  | cons a t ih =>
    cases t with
    | nil =>
      by_cases hs : isPySpace a = true
      · simp [collapseSpaces, hs] at h
        exact Or.inl h
      · have hs2 : isPySpace a = false := Bool.eq_false_iff.mpr hs
        simp [collapseSpaces, hs2] at h
        subst h
        exact Or.inr ⟨List.mem_cons_self _ _, hs2⟩
    | cons b u =>
      by_cases hs : isPySpace a = true
      · by_cases hs2 : isPySpace b = true
        · simp only [collapseSpaces, hs, hs2, if_pos] at h
          rcases ih h with h1 | ⟨h1, h2⟩
          · exact Or.inl h1
          · exact Or.inr ⟨List.mem_cons_of_mem _ h1, h2⟩
        · have hb : isPySpace b = false := Bool.eq_false_iff.mpr hs2
          simp only [collapseSpaces, hs, hb, if_pos, if_neg, Bool.false_eq_true,
            not_false_iff, List.mem_cons] at h
          rcases h with h1 | h1
          · exact Or.inl h1
          · rcases ih h1 with h2 | ⟨h2, h3⟩
            · exact Or.inl h2
            · exact Or.inr ⟨List.mem_cons_of_mem _ h2, h3⟩
      · have ha : isPySpace a = false := Bool.eq_false_iff.mpr hs
        simp only [collapseSpaces, ha, Bool.false_eq_true, if_neg, not_false_iff,
          List.mem_cons] at h
        rcases h with h1 | h1
        · subst h1
          exact Or.inr ⟨List.mem_cons_self _ _, ha⟩
        · rcases ih h1 with h2 | ⟨h2, h3⟩
          · exact Or.inl h2
          · exact Or.inr ⟨List.mem_cons_of_mem _ h2, h3⟩

theorem collapseSpaces_eq_self {l : List Char} (h : ∀ c ∈ l, isPySpace c = false) :
    collapseSpaces l = l := by
  induction l with
  | nil => rfl
  | cons a t ih =>
    cases t with
    | nil => simp [collapseSpaces, h a (List.mem_cons_self a [])]
    | cons b u =>
      have ha := h a (List.mem_cons_self _ _)
      have hrest : ∀ c ∈ b :: u, isPySpace c = false := fun c hc =>
        h c (List.mem_cons_of_mem _ hc)
      simp only [collapseSpaces, ha, Bool.false_eq_true, if_neg, not_false_iff]
      rw [ih hrest]

theorem mem_collapseHyphens {l : List Char} {c : Char} (h : c ∈ collapseHyphens l) :
    c ∈ l := by
  induction l with
  | nil => simp [collapseHyphens] at h
  | cons a t ih =>
    cases t with
    | nil => simpa [collapseHyphens] using h
    | cons b u =>
      by_cases hd : (a == '-' && b == '-') = true
      · simp only [collapseHyphens, hd, if_pos] at h
        exact List.mem_cons_of_mem _ (ih h)
      · have hd2 : (a == '-' && b == '-') = false := Bool.eq_false_iff.mpr hd
        simp only [collapseHyphens, hd2, Bool.false_eq_true, if_neg, not_false_iff,
          List.mem_cons] at h
        rcases h with h1 | h1
        · exact h1 ▸ List.mem_cons_self _ _
        · exact List.mem_cons_of_mem _ (ih h1)

theorem collapseHyphens_cons (d : Char) (cs : List Char) :
    ∃ t, collapseHyphens (d :: cs) = d :: t := by
  induction cs generalizing d with
  | nil => exact ⟨[], rfl⟩
  | cons b u ih =>
    by_cases hd : (d == '-' && b == '-') = true
    · have hb : d = b := by
        simp only [Bool.and_eq_true, beq_iff_eq] at hd
        rw [hd.1, hd.2]
      obtain ⟨t, ht⟩ := ih b
      refine ⟨t, ?_⟩
      simp only [collapseHyphens, hd, if_pos]
      rw [ht, hb]
    · have hd2 : (d == '-' && b == '-') = false := Bool.eq_false_iff.mpr hd
      exact ⟨collapseHyphens (b :: u), by simp [collapseHyphens, hd2]⟩

theorem noDoubleHyphen_collapseHyphens (l : List Char) :
    noDoubleHyphen (collapseHyphens l) = true := by
  induction l with
  | nil => rfl
  | cons a t ih =>
    cases t with
    | nil => rfl
    | cons b u =>
      by_cases hd : (a == '-' && b == '-') = true
      · simpa only [collapseHyphens, hd, if_pos] using ih
      · have hd2 : (a == '-' && b == '-') = false := Bool.eq_false_iff.mpr hd
        simp only [collapseHyphens, hd2, Bool.false_eq_true, if_neg, not_false_iff]
        obtain ⟨t2, ht2⟩ := collapseHyphens_cons b u
        rw [ht2]
        have ihb : noDoubleHyphen (b :: t2) = true := ht2 ▸ ih
        simp only [noDoubleHyphen, Bool.and_eq_true, Bool.not_eq_eq_eq_not, Bool.not_true]
        exact ⟨by simpa using hd2, ihb⟩

theorem collapseHyphens_eq_self {l : List Char} (h : noDoubleHyphen l = true) :
    collapseHyphens l = l := by
  induction l with
  | nil => rfl
  | cons a t ih =>
    cases t with
    | nil => rfl
    | cons b u =>
      simp only [noDoubleHyphen, Bool.and_eq_true, Bool.not_eq_eq_eq_not, Bool.not_true] at h
      simp only [collapseHyphens, h.1, Bool.false_eq_true, if_neg, not_false_iff]
      rw [ih h.2]

theorem noDoubleHyphen_map_pyToLower {l : List Char} (h : noDoubleHyphen l = true) :
    noDoubleHyphen (l.map pyToLower) = true := by
  induction l with
  | nil => rfl
  | cons a t ih =>
    cases t with
    | nil => rfl
    | cons b u =>
      simp only [noDoubleHyphen, Bool.and_eq_true, Bool.not_eq_eq_eq_not, Bool.not_true] at h
      simp only [List.map_cons, noDoubleHyphen, Bool.and_eq_true, Bool.not_eq_eq_eq_not,
        Bool.not_true]
      constructor
      · apply Bool.eq_false_iff.mpr
        intro hc
        simp only [Bool.and_eq_true, beq_iff_eq] at hc
        have ha := pyToLower_hyphen hc.1
        have hb := pyToLower_hyphen hc.2
        rw [ha, hb] at h
        simpa using h.1
      · exact ih h.2

/-! ## The slug invariants -/

theorem keep_not_space_good {d : Char} (hk : keepChar d = true)
    (hs : isPySpace d = false) : goodChar (pyToLower d) = true := by
  unfold keepChar at hk
  simp only [Bool.or_eq_true] at hk
  rcases hk with (((h1 | h1) | h1) | h1) | h1
  · unfold goodChar
    simp [pyToLower_of_upper h1]
  · have hu : isUpperAscii d = false := by
      unfold isLowerAscii at h1
      simp only [Bool.and_eq_true, decide_eq_true_eq] at h1
      apply Bool.eq_false_iff.mpr
      intro hu
      unfold isUpperAscii at hu
      simp only [Bool.and_eq_true, decide_eq_true_eq] at hu
      omega
    rw [pyToLower_of_not_upper hu]
    unfold goodChar
    simp [h1]
  · have hu : isUpperAscii d = false := by
      unfold isDigitAscii at h1
      simp only [Bool.and_eq_true, decide_eq_true_eq] at h1
      apply Bool.eq_false_iff.mpr
      intro hu
      unfold isUpperAscii at hu
      simp only [Bool.and_eq_true, decide_eq_true_eq] at hu
      omega
    rw [pyToLower_of_not_upper hu]
    unfold goodChar
    simp [h1]
  · rw [h1] at hs
    exact absurd hs (by simp)
  · have hd : d = '-' := beq_iff_eq.mp h1
    subst hd
    decide

theorem gerar_slug_mem_good {s : List Char} {c : Char} (h : c ∈ gerar_slug s) :
    goodChar c = true := by
  unfold gerar_slug at h
  rw [List.mem_map] at h
  obtain ⟨d, hd, hdc⟩ := h
  subst hdc
  have hd2 := mem_collapseHyphens hd
  rcases mem_collapseSpaces hd2 with h1 | ⟨h1, h2⟩
  · subst h1
    decide
  · have h3 := mem_pyStrip h1
    rw [List.mem_filter] at h3
    exact keep_not_space_good h3.2 h2

theorem gerar_slug_all_good (s : List Char) : (gerar_slug s).all goodChar = true := by
  rw [List.all_eq_true]
  intro c hc
  exact gerar_slug_mem_good hc

theorem gerar_slug_noDouble (s : List Char) : noDoubleHyphen (gerar_slug s) = true :=
  noDoubleHyphen_map_pyToLower (noDoubleHyphen_collapseHyphens _)

/-! ## Idempotence machinery -/

theorem map_pyToLower_eq_self {l : List Char} (h : ∀ c ∈ l, goodChar c = true) :
    l.map pyToLower = l := by
  induction l with
  | nil => rfl
  | cons a t ih =>
    rw [List.map_cons,
      pyToLower_of_not_upper (good_not_upper (h a (List.mem_cons_self _ _))),
      ih (fun c hc => h c (List.mem_cons_of_mem _ hc))]

theorem nfkdChar_good {c : Char} (h : goodChar c = true) : nfkdChar c = [c] := by
  have hlt := good_ascii h
  have h1 : (c == 'á') = false :=
    beq_eq_false_iff_ne.mpr (fun he => by cases he; exact absurd hlt (by decide))
  have h2 : (c == 'ã') = false :=
    beq_eq_false_iff_ne.mpr (fun he => by cases he; exact absurd hlt (by decide))
  have h3 : (c == 'ç') = false :=
    beq_eq_false_iff_ne.mpr (fun he => by cases he; exact absurd hlt (by decide))
  have h4 : (c == 'é') = false :=
    beq_eq_false_iff_ne.mpr (fun he => by cases he; exact absurd hlt (by decide))
  have h5 : (c == 'ê') = false :=
    beq_eq_false_iff_ne.mpr (fun he => by cases he; exact absurd hlt (by decide))
  simp [nfkdChar, h1, h2, h3, h4, h5]

theorem nfkd_eq_self {l : List Char} (h : ∀ c ∈ l, goodChar c = true) :
    nfkd l = l := by
  induction l with
  | nil => rfl
  | cons a t ih =>
    have ht := ih (fun c hc => h c (List.mem_cons_of_mem _ hc))
    show (List.map nfkdChar (a :: t)).flatten = a :: t
    rw [List.map_cons, List.flatten_cons, nfkdChar_good (h a (List.mem_cons_self _ _)),
      List.singleton_append]
    exact congrArg (List.cons a) ht

theorem asciiIgnore_eq_self {l : List Char} (h : ∀ c ∈ l, goodChar c = true) :
    asciiIgnore l = l :=
  List.filter_eq_self.mpr (fun c hc => decide_eq_true (good_ascii (h c hc)))

theorem filter_keep_eq_self {l : List Char} (h : ∀ c ∈ l, goodChar c = true) :
    l.filter keepChar = l :=
  List.filter_eq_self.mpr (fun c hc => good_keep (h c hc))

/-! ## Lemmas about the validators -/

theorem stripFragment_idem (href : List Char) :
    stripFragment (stripFragment href) = stripFragment href := by
  unfold stripFragment
  induction href with
  | nil => rfl
  | cons a t ih =>
    by_cases ha : (a != '#') = true
    · rw [List.takeWhile_cons, if_pos ha, List.takeWhile_cons, if_pos ha, ih]
    · rw [List.takeWhile_cons, if_neg (by simp_all)]
      rfl

theorem anySuffix_of_isSub {pat t : List Char} {q : List Char → Bool}
    (hq : ∀ s, pat.isPrefixOf s = true → q s = true) (h : isSub pat t = true) :
    anySuffix q t = true := by
  unfold isSub at h
  induction t with
  | nil =>
    simp only [anySuffix] at h ⊢
    exact hq [] h
  | cons a u ih =>
    simp only [anySuffix, Bool.or_eq_true] at h ⊢
    rcases h with h | h
    · exact Or.inl (hq _ h)
    · exact Or.inr (ih h)

theorem numGets_le (total : Nat) (resp : Nat → Nat) (i : Nat) :
    numGets total resp i ≤ 1 + total := by
  induction total generalizing i with
  | zero => simp [numGets]
  | succ n ih =>
    unfold numGets
    split
    · have := ih (i + 1)
      omega
    · omega

/-! ## Claims -/

/-- C1, counterexample: `gerar_slug` does not trim hyphens at the ends (only
whitespace is stripped), so the slug of `"- a -"` is `"-a-"`, which starts and
ends with a hyphen — refuting "no leading or trailing hyphen". -/
theorem c1_counterexample :
    gerar_slug ("- a -".toList) = "-a-".toList ∧
      (gerar_slug ("- a -".toList)).head? = some '-' ∧
      (gerar_slug ("- a -".toList)).getLast? = some '-' := by decide

/-- C1, amended: for every input string, the output of `gerar_slug` consists
only of lowercase ASCII alphanumerics and hyphens, with no two consecutive
hyphens; leading or trailing hyphens may remain (the code strips whitespace,
not hyphens). -/
theorem c1_slug_charset_amended (s : List Char) :
    ((gerar_slug s).all goodChar && noDoubleHyphen (gerar_slug s)) = true := by
  rw [gerar_slug_all_good, gerar_slug_noDouble]
  rfl

/-- C2, counterexample: the normalizer does not map
`"Tênis Adidas VL Court 3.0 38"` to `"tenis-adidas-vl-court-3-0-38"` — the
regex deletes `.` instead of turning it into a separator. -/
theorem c2_counterexample :
    gerar_slug ("Tênis Adidas VL Court 3.0 38".toList) ≠
      "tenis-adidas-vl-court-3-0-38".toList := by decide

/-- C2, amended: the normalizer maps `"Tênis Adidas VL Court 3.0 38"` to
`"tenis-adidas-vl-court-30-38"` (the period is discarded, so `3.0` becomes
`30`). -/
theorem c2_scenario_amended :
    gerar_slug ("Tênis Adidas VL Court 3.0 38".toList) =
      "tenis-adidas-vl-court-30-38".toList := by decide

/-- C3, confirmed: `gerar_slug` is idempotent — normalizing an already
normalized string leaves it unchanged. -/
theorem c3_normalize_idempotent (s : List Char) :
    gerar_slug (gerar_slug s) = gerar_slug s := by
  have hg : ∀ c ∈ gerar_slug s, goodChar c = true := fun _ hc => gerar_slug_mem_good hc
  show ((collapseHyphens (collapseSpaces (pyStrip
    ((asciiIgnore (nfkd (gerar_slug s))).filter keepChar)))).map pyToLower) = gerar_slug s
  rw [nfkd_eq_self hg, asciiIgnore_eq_self hg, filter_keep_eq_self hg,
    pyStrip_eq_self (fun c hc => good_not_space (hg c hc)),
    collapseSpaces_eq_self (fun c hc => good_not_space (hg c hc)),
    collapseHyphens_eq_self (gerar_slug_noDouble s),
    map_pyToLower_eq_self hg]

/-- C4, confirmed: the fast-path validator decides on the fragment-stripped
URL (validating a URL and validating its fragment-stripped form are the same),
and a URL whose fragment-stripped form contains a deny-listed segment is never
accepted, whatever the product-pattern outcome and whatever `vistos` holds. -/
theorem c4_deny_list_rejects (href : List Char) (vistos : List (List Char))
    (h : contemInvalido (stripFragment href) = true) :
    (validarHref href vistos).fst ≠ Veredicto.aceito ∧
      validarHref href vistos = validarHref (stripFragment href) vistos := by
  constructor
  · unfold validarHref
    by_cases hv : stripFragment href ∈ vistos
    · simp [hv]
    · simp [hv, h]
  · unfold validarHref
    rw [stripFragment_idem]

/-- Witness for C4 at the spec's Scenario E URL. -/
theorem c4_deny_list_rejects_witness :
    contemInvalido (stripFragment ("https://www.site.tld/ajuda/seguranca#x".toList)) =
        true ∧
      (validarHref ("https://www.site.tld/ajuda/seguranca#x".toList) []).fst ≠
        Veredicto.aceito :=
  ⟨by decide,
    (c4_deny_list_rejects ("https://www.site.tld/ajuda/seguranca#x".toList) []
      (by decide)).1⟩

/-- C5, counterexample: a deny-listed URL is rejected, yet `vistos` does not
stay unchanged — the code adds the stripped URL to the seen set before
checking the deny-list and the pattern. -/
theorem c5_counterexample :
    (validarHref ("https://x/ajuda".toList) []).fst ≠ Veredicto.aceito ∧
      (validarHref ("https://x/ajuda".toList) []).snd ≠ [] := by decide

/-- C5, amended: the validator inserts the fragment-stripped URL into `vistos`
exactly when it is not already present — also when the URL is then rejected by
the deny-list or the pattern; a URL already present is rejected as a duplicate
with `vistos` unchanged. -/
theorem c5_seen_insertion_amended (href : List Char) (vistos : List (List Char)) :
    (vistos.contains (stripFragment href) = true →
      validarHref href vistos = (Veredicto.duplicado, vistos)) ∧
    (vistos.contains (stripFragment href) = false →
      (validarHref href vistos).snd = stripFragment href :: vistos) := by
  constructor
  · intro h
    have hm : stripFragment href ∈ vistos := by simpa using h
    unfold validarHref
    simp [hm]
  · intro h
    unfold validarHref
    rw [if_neg (by rw [h]; exact Bool.false_ne_true)]
    split <;> rfl

/-- Witness for C5. -/
theorem c5_seen_insertion_amended_witness :
    List.contains ([] : List (List Char)) (stripFragment ("https://x/ajuda".toList)) =
        false ∧
      (validarHref ("https://x/ajuda".toList) []).snd =
        stripFragment ("https://x/ajuda".toList) :: [] :=
  ⟨by decide, (c5_seen_insertion_amended ("https://x/ajuda".toList) []).2 (by decide)⟩

/-- C6, counterexample: the fast path mounts an `HTTPAdapter` with
`Retry(total=3, status_forcelist=[429, 500, 502, 503, 504])`, so when the
first response is a 503 the session issues a second GET — refuting "exactly
one HTTP GET per invocation and no retries at this layer". -/
theorem c6_counterexample :
    numGets fastRetryTotal (fun i => if i == 0 then 503 else 200) 0 ≠ 1 := by decide

/-- C6, amended: one `session.get` call issues at most `1 + total = 4` HTTP
GETs (transport-level retries on force-listed statuses), and exactly one GET
when the first response's status is not in the force-list. -/
theorem c6_retries_amended (resp : Nat → Nat) (i : Nat) :
    numGets fastRetryTotal resp i ≤ 1 + fastRetryTotal ∧
      (status_forcelist.contains (resp i) = false →
        numGets fastRetryTotal resp i = 1) := by
  refine ⟨numGets_le _ _ _, fun h => ?_⟩
  show (if status_forcelist.contains (resp i) then 1 + numGets 2 resp (i + 1) else 1) = 1
  rw [if_neg (by rw [h]; exact Bool.false_ne_true)]

/-- Witness for C6: a first response of 200 gives a single GET. -/
theorem c6_retries_amended_witness :
    status_forcelist.contains ((fun _ => 200) 0) = false ∧
      numGets fastRetryTotal (fun _ => 200) 0 = 1 :=
  ⟨by decide, (c6_retries_amended (fun _ => 200) 0).2 (by decide)⟩

/-- C7, counterexample: the two paths do not validate identically — the
slow-path pattern `(?:/item/|/p/)` accepts `https://a/p/x`, which the
fast-path pattern `(\/p\/MLB\d+|MLB-\d+|\/item\/)` rejects. -/
theorem c7_counterexample :
    ¬ (aceitaSlow ("https://a/p/x".toList) = true ↔
      (validarHref ("https://a/p/x".toList) []).fst = Veredicto.aceito) := by decide

/-- C7, amended: the two paths share the fragment stripping and the deny-list
and agree on `/item/` links (with a fresh `seen` set on the fast path), but
their product patterns differ and the slow path keeps no `seen` set at all. -/
theorem c7_item_links_agree (href : List Char)
    (hi : isSub ("/item/".toList) (lowerStr (stripFragment href)) = true)
    (hd : contemInvalido (stripFragment href) = false) :
    aceitaSlow href = true ∧ (validarHref href []).fst = Veredicto.aceito := by
  have hslow : padrao_produto_slow_search (stripFragment href) = true := by
    unfold padrao_produto_slow_search
    exact anySuffix_of_isSub (fun s hs => by unfold altSlowAt; rw [hs]; rfl) hi
  have hfast : padrao_produto_search (stripFragment href) = true := by
    unfold padrao_produto_search
    exact anySuffix_of_isSub (fun s hs => by unfold altFastAt; rw [hs]; simp) hi
  constructor
  · simp [aceitaSlow, hd, hslow]
  · unfold validarHref
    simp [hd, hfast]

/-- Witness for C7, on an `/item/` URL accepted by both paths. -/
theorem c7_item_links_agree_witness :
    isSub ("/item/".toList) (lowerStr (stripFragment ("https://x/item/1".toList))) =
        true ∧
      contemInvalido (stripFragment ("https://x/item/1".toList)) = false ∧
      aceitaSlow ("https://x/item/1".toList) = true ∧
      (validarHref ("https://x/item/1".toList) []).fst = Veredicto.aceito := by
  have h := c7_item_links_agree ("https://x/item/1".toList) (by decide) (by decide)
  exact ⟨by decide, by decide, h.1, h.2⟩

/-! ## Lemmas for the fast-path loop -/

theorem validarHref_invalido {href : List Char} {vistos : List (List Char)}
    (hinv : (contemInvalido (stripFragment href) ||
      !padrao_produto_search (stripFragment href)) = true) :
    validarHref href vistos = (Veredicto.duplicado, vistos) ∨
      validarHref href vistos = (Veredicto.ignorado, stripFragment href :: vistos) := by
  unfold validarHref
  by_cases h2 : stripFragment href ∈ vistos
  · left
    simp [h2]
  · right
    simp [h2, hinv]

theorem loopValidar_all_invalid (limite : Nat) (cards : List (Option (List Char))) :
    ∀ vistos links, (∀ c ∈ cards, cardInvalido c = true) →
      loopValidar limite cards vistos links = links := by
  induction cards with
  | nil => intro _ _ _; rfl
  | cons c rest ih =>
    intro vistos links h
    have hrest : ∀ x ∈ rest, cardInvalido x = true := fun x hx =>
      h x (List.mem_cons_of_mem _ hx)
    cases c with
    | none => exact ih _ _ hrest
    | some href =>
      have hc : cardInvalido (some href) = true := h _ (List.mem_cons_self _ _)
      rw [show cardInvalido (some href) = (href.isEmpty ||
        contemInvalido (stripFragment href) ||
        !padrao_produto_search (stripFragment href)) from rfl] at hc
      rw [loopValidar]
      by_cases h1 : href.isEmpty = true
      · rw [if_pos h1]
        exact ih _ _ hrest
      · have h1f : href.isEmpty = false := Bool.eq_false_iff.mpr h1
        rw [if_neg (by rw [h1f]; exact Bool.false_ne_true)]
        have hinv : (contemInvalido (stripFragment href) ||
            !padrao_produto_search (stripFragment href)) = true := by
          rw [h1f] at hc
          simpa using hc
        rcases @validarHref_invalido href vistos hinv with heq | heq
        · rw [heq]
          exact ih _ _ hrest
        · rw [heq]
          exact ih _ _ hrest

/-- C8, counterexample: "no cards at all" and "cards present but every one
invalid" yield the same function result (the empty list) — the fast path's
result conflates the two cases, they differ only in log output. -/
theorem c8_counterexample :
    cascade ⟨[[], [], []], []⟩ = [] ∧
      cascade ⟨[[some ("https://x/ajuda".toList)], [], []], []⟩ ≠ [] ∧
      buscar_links_resultado ⟨[[], [], []], []⟩ 1 =
        buscar_links_resultado ⟨[[some ("https://x/ajuda".toList)], [], []], []⟩ 1 := by
  decide

/-- C8, amended: `buscar_links_mercado_livre` returns the empty list both when
the selector cascade yields no card and when every yielded card fails
validation; the two situations are not distinguished in the returned value. -/
theorem c8_both_cases_empty_amended (p : Pagina) (limite : Nat) :
    (cascade p = [] → buscar_links_resultado p limite = []) ∧
      ((∀ c ∈ cascade p, cardInvalido c = true) →
        buscar_links_resultado p limite = []) := by
  constructor
  · intro h
    simp [buscar_links_resultado, h]
  · intro h
    simp only [buscar_links_resultado]
    by_cases hc : (cascade p).isEmpty = true
    · rw [if_pos hc]
    · rw [if_neg (by rw [Bool.eq_false_iff.mpr hc]; exact Bool.false_ne_true)]
      exact loopValidar_all_invalid limite (cascade p) [] [] h

/-- Witness for C8, on a page whose single card is deny-listed. -/
theorem c8_both_cases_empty_amended_witness :
    (∀ c ∈ cascade ⟨[[some ("https://x/ajuda".toList)], [], []], []⟩,
        cardInvalido c = true) ∧
      buscar_links_resultado ⟨[[some ("https://x/ajuda".toList)], [], []], []⟩ 1 = [] :=
  ⟨by decide,
    (c8_both_cases_empty_amended ⟨[[some ("https://x/ajuda".toList)], [], []], []⟩ 1).2
      (by decide)⟩

/-- C9, counterexample: on the slow path a failing debug write is not
swallowed — with no valid candidate, a write failure either propagates
`OSError` out of the term loop (first conjunct) or, when the handler's own
write succeeds, turns the term's status from `"Não encontrado"` into
`"Erro: OSError"` (second vs third conjunct). -/
theorem c9_counterexample :
    processarTermo (CarregarResultado.ok [some ("https://x/ajuda".toList)]) true true =
        Except.error ("OSError".toList) ∧
      processarTermo (CarregarResultado.ok [some ("https://x/ajuda".toList)]) true
          false =
        Except.ok ⟨"NÃO ENCONTRADO".toList, "Erro: OSError".toList⟩ ∧
      processarTermo (CarregarResultado.ok [some ("https://x/ajuda".toList)]) false
          false =
        Except.ok ⟨"NÃO ENCONTRADO".toList, "Não encontrado".toList⟩ :=
  ⟨rfl, rfl, rfl⟩

/-- C9, amended: on the fast path the claim holds — both debug-capture writes
are wrapped in `try ... except OSError`, so the returned value never depends
on whether the write fails and no exception propagates.  (On the slow path the
writes are unprotected; see the counterexample.) -/
theorem c9_fast_write_failure_harmless (p : Pagina) (limite : Nat)
    (salvar falha : Bool) :
    buscar_links_posResposta p limite salvar falha =
      Except.ok (buscar_links_resultado p limite) := by
  simp only [buscar_links_posResposta, buscar_links_resultado, tentarEscrever]
  by_cases hc : (cascade p).isEmpty = true
  · rw [if_pos hc, if_pos hc]
    cases salvar with
    | false => rfl
    | true => cases falha <;> rfl
  · rw [if_neg hc, if_neg hc]
    by_cases hl : ((loopValidar limite (cascade p) [] []).isEmpty && salvar) = true
    · rw [if_pos hl]
      cases falha <;> rfl
    · rw [if_neg hl]

/-! ## Lemmas for the slow-path loop -/

theorem primeiroValido_aceita {elementos : List (Option (List Char))} {h : List Char}
    (he : primeiroValido elementos = some h) : aceitaSlow h = true := by
  induction elementos with
  | nil => simp [primeiroValido] at he
  | cons c rest ih =>
    cases c with
    | none => exact ih he
    | some href =>
      rw [primeiroValido] at he
      split at he
      · exact ih he
      · split at he
        · exact ih he
        · split at he
          · exact ih he
          · rename_i hempty hinv hpat
            injection he with hx
            subst hx
            simp only [Bool.not_eq_true] at hinv hpat
            have hp : padrao_produto_slow_search (stripFragment href) = true := by
              simpa using hpat
            simp [aceitaSlow, stripFragment_idem, hinv, hp]

theorem erro_ne_sucesso (nome : List Char) :
    ("Erro: ".toList ++ nome) ≠ "Sucesso".toList := by
  intro h
  have h2 : ('E' :: ("rro: ".toList ++ nome)) = 'S' :: "ucesso".toList := h
  have h3 := List.head_eq_of_cons_eq h2
  exact absurd h3 (by decide)

/-- C10, confirmed: in every record the slow path produces, the link equals
the sentinel `"NÃO ENCONTRADO"` exactly when the status is not `"Sucesso"`,
and a `"Sucesso"` record carries a link that passed the slow-path validation
(fragment-free, deny-list clean, product pattern matched). -/
theorem c10_link_status_invariant (carregar : CarregarResultado) (f1 f2 : Bool)
    (r : Registro) (h : processarTermo carregar f1 f2 = Except.ok r) :
    (r.link = "NÃO ENCONTRADO".toList ↔ r.status ≠ "Sucesso".toList) ∧
      (r.status = "Sucesso".toList → aceitaSlow r.link = true) := by
  cases carregar with
  | ok elementos =>
    rw [processarTermo] at h
    cases he : primeiroValido elementos with
    | some l =>
      rw [he] at h
      injection h with h
      subst h
      have ha := primeiroValido_aceita he
      refine ⟨⟨fun hl => ?_, fun hs => ?_⟩, fun _ => ha⟩
      · exfalso
        have hl2 : l = "NÃO ENCONTRADO".toList := hl
        rw [hl2] at ha
        exact absurd ha (by decide)
      · exact absurd rfl hs
    | none =>
      rw [he] at h
      cases f1 with
      | false =>
        rw [if_neg Bool.false_ne_true] at h
        injection h with h
        subst h
        exact ⟨by decide, by decide⟩
      | true =>
        cases f2 with
        | false =>
          rw [if_pos rfl, if_neg Bool.false_ne_true] at h
          injection h with h
          subst h
          exact ⟨by decide, by decide⟩
        | true =>
          rw [if_pos rfl, if_pos rfl] at h
          exact Except.noConfusion h
  | timeout =>
    rw [processarTermo] at h
    cases f1 with
    | false =>
      rw [if_neg Bool.false_ne_true] at h
      injection h with h
      subst h
      exact ⟨by decide, by decide⟩
    | true =>
      rw [if_pos rfl] at h
      exact Except.noConfusion h
  | erro nome =>
    rw [processarTermo] at h
    cases f1 with
    | false =>
      rw [if_neg Bool.false_ne_true] at h
      injection h with h
      subst h
      exact ⟨⟨fun _ => erro_ne_sucesso nome, fun _ => rfl⟩,
        fun hs => absurd hs (erro_ne_sucesso nome)⟩
    | true =>
      rw [if_pos rfl] at h
      exact Except.noConfusion h

/-- Witness for C10, on a successful slow-path term. -/
theorem c10_link_status_invariant_witness :
    processarTermo (CarregarResultado.ok [some ("https://x/item/1".toList)]) false
        false = Except.ok ⟨"https://x/item/1".toList, "Sucesso".toList⟩ ∧
      (("https://x/item/1".toList : List Char) = "NÃO ENCONTRADO".toList ↔
        ("Sucesso".toList : List Char) ≠ "Sucesso".toList) ∧
      (("Sucesso".toList : List Char) = "Sucesso".toList →
        aceitaSlow ("https://x/item/1".toList) = true) :=
  ⟨rfl,
    (c10_link_status_invariant (CarregarResultado.ok [some ("https://x/item/1".toList)])
      false false ⟨"https://x/item/1".toList, "Sucesso".toList⟩ rfl).1,
    (c10_link_status_invariant (CarregarResultado.ok [some ("https://x/item/1".toList)])
      false false ⟨"https://x/item/1".toList, "Sucesso".toList⟩ rfl).2⟩

end ScraperML
